import Mathlib

/-!
Verification development for the criptoPortfolio repository
(src/app.py and src/visualizer.py).

Shallow embedding conventions:
* Python floats that hold exact decimal trade data are modelled as `ℚ`.
  The claims under study are about exact arithmetic identities of the
  matching engine, not float rounding.
* The one place where IEEE special values are observable (division by a
  zero open price in visualizer.py, and pandas NaN produced by a failed
  regex extraction) is modelled explicitly: `FloatVal` adds `inf`, `ninf`
  and `nan` to `ℚ`, and a pandas column value that may be NaN is an
  `Option ℚ` (`none` = NaN).
* `pd.Timestamp` values are modelled by the `Date` record below; the
  engines never do date arithmetic, they only carry dates along and
  (in the statistics code) project them to a (year, month) period.
* Python dicts (insertion ordered) are association lists with
  `dictGet` / `dictSet` below.
* `process_orders` in both files first normalizes the dataframe
  (modelled by `normalize_row` / `extract_executed`), then sorts it by
  `Date(UTC)` (pandas `sort_values`, default quicksort; the sort step is
  not modelled - the matching loop below consumes the post-sort
  sequence, and every theorem about it holds for an arbitrary input
  order), then runs the matching loop (modelled by `App.process_row` /
  `Viz.viz_process_row` folded over the row list).
-/

/-- A calendar timestamp, as carried by the `Date(UTC)` column after
`pd.to_datetime`.  Only equality and the (year, month) projection are
ever used by the code under study. -/
structure Date where
  year : ℤ
  month : ℤ
  day : ℤ
deriving DecidableEq, Repr

/-- `closed_positions_df['Close Date'].dt.to_period('M')`: the month
period of a timestamp. -/
def month_of (d : Date) : ℤ × ℤ := (d.year, d.month)

/-- IEEE-754 double values as observable in this program: a finite
value, the two infinities, or NaN. -/
inductive FloatVal where
  | val (q : ℚ)
  | inf
  | ninf
  | nan
deriving DecidableEq, Repr

/-- Float division of two finite values (`numpy.float64` semantics):
finite quotient if the denominator is nonzero, otherwise a signed
infinity or NaN.  numpy emits a RuntimeWarning here, not an exception. -/
def fdiv (a b : ℚ) : FloatVal :=
  if b = 0 then (if 0 < a then .inf else if a < 0 then .ninf else .nan)
  else .val (a / b)

/-- Multiplication by the positive constant 100 (`* 100` on a float). -/
def fmul100 : FloatVal → FloatVal
  | .val q => .val (q * 100)
  | .inf => .inf
  | .ninf => .ninf
  | .nan => .nan

/-- Float addition (`+=` accumulation in visualizer.py). -/
def FloatVal.add : FloatVal → FloatVal → FloatVal
  | .nan, _ => .nan
  | _, .nan => .nan
  | .inf, .ninf => .nan
  | .ninf, .inf => .nan
  | .inf, _ => .inf
  | _, .inf => .inf
  | .ninf, _ => .ninf
  | _, .ninf => .ninf
  | .val a, .val b => .val (a + b)

/-! ## Numeric-token extraction

`df['Executed'].str.extract(r'(\d+\.\d+|\d+)').astype(float)`
(app.py line 58, visualizer.py line 36).  `str.extract` takes the
leftmost match of the pattern: the first maximal digit run, extended by
a fractional part when a dot followed by a digit comes right after it.
On a string with no digit, `str.extract` yields NaN and
`.astype(float)` keeps the NaN - no exception is raised. -/

/-- Numeric value of a digit string. -/
def natOfDigits (l : List Char) : ℕ :=
  l.foldl (fun n c => 10 * n + (c.toNat - '0'.toNat)) 0

/-- Leftmost match of `\d+\.\d+|\d+`: integer-part digits plus an
optional fractional-part digit run.  `none` when the string has no
digit. -/
def extract_token : List Char → Option (List Char × Option (List Char))
  | [] => none
  | c :: cs =>
    if c.isDigit then
      some ((c :: cs).takeWhile Char.isDigit,
        match (c :: cs).dropWhile Char.isDigit with
        | '.' :: rest =>
          match rest.takeWhile Char.isDigit with
          | [] => none
          | fp => some fp
        | _ => none)
    else extract_token cs

/-- Rational value of a matched token. -/
def ratOfToken : List Char × Option (List Char) → ℚ
  | (ip, none) => (natOfDigits ip : ℚ)
  | (ip, some fp) => (natOfDigits ip : ℚ) + (natOfDigits fp : ℚ) / ((10 : ℚ) ^ fp.length)

/-- The full `Executed` / `Amount` column treatment: extract the leading
numeric token and convert to float; a string with no token becomes NaN
(`none`).  This function is total - the source line never raises. -/
def extract_executed (s : String) : Option ℚ :=
  (extract_token s.toList).map ratOfToken

/-! ## Pair decomposition (app.py lines 25-46, visualizer.py lines 18-27) -/

/-- The fixed quote-currency suffix list. -/
def quote_currencies : List String := ["EUR", "USDT", "FDUSD"]

/-- Python `s.endswith(suffix)`, over the character lists (the core
`String.endsWith` does not reduce in the kernel). -/
def pyEndsWith (s suffix : String) : Bool :=
  suffix.toList.isSuffixOf s.toList

/-- Strip `pat` from the front of `l`, returning the remainder on a
match. -/
def stripPre : List Char → List Char → Option (List Char)
  | [], l => some l
  | _ :: _, [] => none
  | p :: ps, c :: cs => if p = c then stripPre ps cs else none

/-- Left-to-right, non-overlapping removal of every occurrence of
`pat`, fuelled by the input length so the recursion is structural.
With `pat ≠ []` each step consumes at least one character, so
`l.length + 1` fuel always suffices; with `pat = []` the fuel runs out
and the list is returned unchanged, matching Python
`s.replace('', '')`. -/
def removeAllFuel : ℕ → List Char → List Char → List Char
  | 0, _, l => l
  | _ + 1, _, [] => []
  | n + 1, pat, c :: cs =>
    match stripPre pat (c :: cs) with
    | some rest => removeAllFuel n pat rest
    | none => c :: removeAllFuel n pat cs

/-- Python `s.replace(pat, '')`: remove every occurrence of `pat`. -/
def pyReplaceEmpty (s pat : String) : String :=
  String.mk (removeAllFuel (s.toList.length + 1) pat.toList s.toList)

/-- `get_quote_currency` (app.py): first list entry that is a suffix of
the pair symbol, `"UNKNOWN"` otherwise. -/
def get_quote_currency (pair : String) : String :=
  match quote_currencies.find? (fun q => pyEndsWith pair q) with
  | some q => q
  | none => "UNKNOWN"

/-- `get_base_currency` (app.py): strip the recognised quote currency
(`str.replace` removes every occurrence, as in Python), full symbol as
fallback. -/
def get_base_currency (pair : String) : String :=
  if get_quote_currency pair ≠ "UNKNOWN" then
    pyReplaceEmpty pair (get_quote_currency pair)
  else pair

/-- `get_base_currency` of visualizer.py is the same computation but
raises `ValueError` when no quote matches; the raising path is modelled
by the validation step of `Viz.viz_process_orders`, and this total
function gives the value on validated pairs. -/
def viz_base_of (pair : String) : String :=
  match quote_currencies.find? (fun q => pyEndsWith pair q) with
  | some q => pyReplaceEmpty pair q
  | none => pair

/-- Python `pair[-4:]` (visualizer.py line 102). -/
def pyLast4 (s : String) : String :=
  String.mk (s.toList.drop (s.toList.length - 4))

/-! ## Normalization (app.py lines 57-62)

`Price` (`astype(float)` on an already numeric column) and `Date(UTC)`
(`pd.to_datetime`) are modelled as pre-parsed inputs: their own failure
modes are outside every claim, while the `Executed` / `Amount`
extraction - the subject of claim C6 - never raises. -/

/-- A raw input row as far as the claims are concerned. -/
structure RawRow where
  pair : String
  side : String
  price : ℚ
  executed : String
  amountCol : String
  date : Date
deriving DecidableEq, Repr

/-- A normalized row: the dataframe after app.py lines 57-62.  The
`Executed` and `Amount` columns may hold NaN (`none`). -/
structure NRow where
  pair : String
  side : String
  price : ℚ
  executed : Option ℚ
  amountCol : Option ℚ
  date : Date
  quoteCurrency : String
  baseCurrency : String
deriving DecidableEq, Repr

/-- Normalization of one row (app.py lines 57-62).  Total: the
extraction path produces NaN on malformed fields instead of failing. -/
def normalize_row (r : RawRow) : NRow :=
  ⟨r.pair, r.side, r.price, extract_executed r.executed,
   extract_executed r.amountCol, r.date,
   get_quote_currency r.pair, get_base_currency r.pair⟩

/-- The whole normalization stage, with an explicit error channel so
that "normalization fails" is statable.  The only fallible steps of the
source (Price `astype`, `to_datetime`) operate on the pre-parsed fields
here, so the stage always succeeds. -/
def normalize_rows (rs : List RawRow) : Except String (List NRow) :=
  .ok (rs.map normalize_row)

/-! ## Insertion-ordered dictionaries (Python `dict`) -/

/-- Python `d[k]` / `k in d`: first (unique) binding of a key. -/
def dictGet {α : Type} : List (String × α) → String → Option α
  | [], _ => none
  | kv :: d, k => if kv.1 = k then some kv.2 else dictGet d k

/-- `d.get(k, v0)` - also models `k not in d or not d[k]` checks. -/
def dictGetD {α : Type} (d : List (String × α)) (k : String) (v0 : α) : α :=
  (dictGet d k).getD v0

/-- Python `d[k] = v`: replace in place, or append a new key at the
end (insertion order). -/
def dictSet {α : Type} : List (String × α) → String → α → List (String × α)
  | [], k, v => [(k, v)]
  | kv :: d, k, v => if kv.1 = k then (k, v) :: d else kv :: dictSet d k v

/-! ## The matching engine data model -/

/-- An open lot: `{'price': .., 'amount': .., 'date': ..}`
(app.py lines 82-86). -/
structure Lot where
  price : ℚ
  amount : ℚ
  date : Date
deriving DecidableEq, Repr

/-- A closed position record (app.py lines 100-108 / 114-122). -/
structure ClosedPos where
  baseCurrency : String
  openPrice : ℚ
  closePrice : ℚ
  amount : ℚ
  openDate : Date
  closeDate : Date
  profitLossUsdt : ℚ
deriving DecidableEq, Repr

/-- A normalized trade row as read by the matching loop
(`row['Base Currency']`, `row['Side']`, `row['Price']`,
`row['Executed']`, `row['Date(UTC)']`).  The `amount` is the extracted
`Executed` value. -/
structure Trade where
  pair : String
  side : String
  price : ℚ
  amount : ℚ
  date : Date
  baseCurrency : String
deriving DecidableEq, Repr

namespace App

/-- The inner `while remaining_to_sell > 0 and open_positions[base]`
loop of app.py lines 95-124, consuming a queue of open lots.  Returns
the closed slices emitted (in order) and the remaining queue.  The
full-close branch (`open_order['amount'] <= remaining_to_sell`) pops
the head and recurses; the partial branch shrinks the head in place,
after which `remaining_to_sell = 0` ends the loop. -/
def sellFifo (base : String) (price : ℚ) (date : Date) :
    List Lot → ℚ → List ClosedPos × List Lot
  | [], _ => ([], [])
  | l :: q, r =>
    if 0 < r then
      if l.amount ≤ r then
        (⟨base, l.price, price, l.amount, l.date, date,
            l.amount * (price - l.price)⟩ ::
              (sellFifo base price date q (r - l.amount)).1,
          (sellFifo base price date q (r - l.amount)).2)
      else
        ([⟨base, l.price, price, r, l.date, date, r * (price - l.price)⟩],
          ⟨l.price, l.amount - r, l.date⟩ :: q)
    else ([], l :: q)

/-- State of the matching loop of app.py `process_orders`:
`open_positions`, `closed_positions`, `orphan_sell_orders`. -/
structure PState where
  openPos : List (String × List Lot)
  closed : List ClosedPos
  orphans : List Trade
deriving DecidableEq, Repr

def initState : PState := ⟨[], [], []⟩

/-- One iteration of the `for _, row in df.iterrows()` loop of
app.py lines 71-124. -/
def process_row (st : PState) (row : Trade) : PState :=
  if row.side = "BUY" then
    { st with
        openPos := dictSet st.openPos row.baseCurrency
                     (dictGetD st.openPos row.baseCurrency [] ++
                       [⟨row.price, row.amount, row.date⟩]) }
  else if row.side = "SELL" then
    if dictGetD st.openPos row.baseCurrency [] = [] then
      { st with orphans := st.orphans ++ [row] }
    else
      { st with
          openPos := dictSet st.openPos row.baseCurrency
                       (sellFifo row.baseCurrency row.price row.date
                         (dictGetD st.openPos row.baseCurrency []) row.amount).2,
          closed := st.closed ++
                      (sellFifo row.baseCurrency row.price row.date
                        (dictGetD st.openPos row.baseCurrency []) row.amount).1 }
  else st

/-- The matching loop of app.py `process_orders` (lines 67-127) over
the normalized, date-sorted row sequence. -/
def process_orders (rows : List Trade) : PState :=
  rows.foldl process_row initState

end App

namespace Viz

/-- An open lot of visualizer.py (line 61): price, amount, quote
currency, date. -/
structure VizLot where
  price : ℚ
  amount : ℚ
  quote : String
  date : Date
deriving DecidableEq, Repr

/-- A closed position record of visualizer.py (lines 73-84 / 94-105),
including its unguarded `Profit/Loss %` column. -/
structure VizClosed where
  baseCurrency : String
  openPrice : ℚ
  closePrice : ℚ
  amount : ℚ
  openDate : Date
  closeDate : Date
  quoteOpen : String
  quoteClose : String
  plUsdt : ℚ
  plPct : FloatVal
deriving DecidableEq, Repr

/-- `profit_loss_percentage = (price - open_order['price']) /
open_order['price'] * 100` (visualizer.py lines 72 and 93): float
division with no zero guard. -/
def viz_pl_pct (openPrice closePrice : ℚ) : FloatVal :=
  fmul100 (fdiv (closePrice - openPrice) openPrice)

/-- The inner while loop of visualizer.py lines 66-109. -/
def viz_sell_fifo (pair base : String) (price : ℚ) (date : Date) :
    List VizLot → ℚ → List VizClosed × List VizLot
  | [], _ => ([], [])
  | l :: q, r =>
    if 0 < r then
      if l.amount ≤ r then
        (⟨base, l.price, price, l.amount, l.date, date, l.quote,
            pyReplaceEmpty pair (viz_base_of pair),
            l.amount * (price - l.price), viz_pl_pct l.price price⟩ ::
              (viz_sell_fifo pair base price date q (r - l.amount)).1,
          (viz_sell_fifo pair base price date q (r - l.amount)).2)
      else
        ([⟨base, l.price, price, r, l.date, date, l.quote, pyLast4 pair,
            r * (price - l.price), viz_pl_pct l.price price⟩],
          ⟨l.price, l.amount - r, l.quote, l.date⟩ :: q)
    else ([], l :: q)

/-- Loop state of visualizer.py `process_orders`: open positions,
closed positions and the two running totals (lines 44-47). -/
structure VizState where
  openPos : List (String × List VizLot)
  closed : List VizClosed
  totalUsdt : ℚ
  totalPct : FloatVal
deriving DecidableEq, Repr

/-- One iteration of the row loop of visualizer.py lines 49-109.  A
SELL whose base has no open lots matches no branch of the inner `if`
and is silently skipped - visualizer.py has no orphan list. -/
def viz_process_row (st : VizState) (row : Trade) : VizState :=
  if row.side = "BUY" then
    { st with
        openPos := dictSet st.openPos row.baseCurrency
                     (dictGetD st.openPos row.baseCurrency [] ++
                       [⟨row.price, row.amount,
                         pyReplaceEmpty row.pair (viz_base_of row.pair),
                         row.date⟩]) }
  else if row.side = "SELL" then
    if dictGetD st.openPos row.baseCurrency [] = [] then st
    else
      { openPos := dictSet st.openPos row.baseCurrency
                     (viz_sell_fifo row.pair row.baseCurrency row.price
                       row.date (dictGetD st.openPos row.baseCurrency [])
                       row.amount).2,
        closed := st.closed ++
                    (viz_sell_fifo row.pair row.baseCurrency row.price
                      row.date (dictGetD st.openPos row.baseCurrency [])
                      row.amount).1,
        totalUsdt := st.totalUsdt +
                       (((viz_sell_fifo row.pair row.baseCurrency row.price
                           row.date (dictGetD st.openPos row.baseCurrency [])
                           row.amount).1).map VizClosed.plUsdt).sum,
        totalPct := ((viz_sell_fifo row.pair row.baseCurrency row.price
                       row.date (dictGetD st.openPos row.baseCurrency [])
                       row.amount).1).foldl
                      (fun acc c => FloatVal.add acc c.plPct) st.totalPct }
  else st

/-- One row of the open-position summary (visualizer.py lines 112-121). -/
structure VizSummaryRow where
  baseCurrency : String
  meanPrice : ℚ
  totalAmount : ℚ
  totalUsd : ℚ
deriving DecidableEq, Repr

/-- The whole result of visualizer.py `process_orders`. -/
structure VizResult where
  summary : List VizSummaryRow
  closed : List VizClosed
  totalUsdt : ℚ
  totalPct : FloatVal
deriving DecidableEq, Repr

/-- Open-position summary (visualizer.py lines 111-121): weighted mean
price with a zero-total guard, per dict entry in insertion order. -/
def viz_summarize (openPos : List (String × List VizLot)) :
    List VizSummaryRow :=
  openPos.map (fun bp =>
    ⟨bp.1,
      if 0 < (bp.2.map VizLot.amount).sum then
        (bp.2.map (fun l => l.price * l.amount)).sum /
          (bp.2.map VizLot.amount).sum
      else 0,
      (bp.2.map VizLot.amount).sum,
      (bp.2.map VizLot.amount).sum *
        (if 0 < (bp.2.map VizLot.amount).sum then
          (bp.2.map (fun l => l.price * l.amount)).sum /
            (bp.2.map VizLot.amount).sum
        else 0)⟩)

/-- visualizer.py `process_orders` (lines 30-123) over the normalized,
date-sorted row sequence.  The error channel models the `ValueError`
raised by its `get_base_currency` when a pair has no known quote
suffix (line 39 applies it to every row). -/
def viz_process_orders (rows : List Trade) : Except String VizResult :=
  if rows.all (fun r => quote_currencies.any (fun q => pyEndsWith r.pair q)) then
    .ok ⟨viz_summarize (rows.foldl viz_process_row ⟨[], [], 0, .val 0⟩).openPos,
         (rows.foldl viz_process_row ⟨[], [], 0, .val 0⟩).closed,
         (rows.foldl viz_process_row ⟨[], [], 0, .val 0⟩).totalUsdt,
         (rows.foldl viz_process_row ⟨[], [], 0, .val 0⟩).totalPct⟩
  else .error "ValueError: Unable to determine base currency"

end Viz

/-- The FIFO consumption step as worded by the specification (section
4.3): `take = min(head.amount, remaining)`, a ClosedLot with
`profitLossAbsolute = take * (P - head.price)` computed against that
slice's own open price, head reduced by `take` and popped when its
amount reaches 0.  Stated from the spec's words, to be compared with
`App.sellFifo`. -/
def spec_fifo_consume (base : String) (price : ℚ) (date : Date) :
    List Lot → ℚ → List ClosedPos × List Lot
  | [], _ => ([], [])
  | l :: q, r =>
    if 0 < r then
      if l.amount - min l.amount r = 0 then
        (⟨base, l.price, price, min l.amount r, l.date, date,
            min l.amount r * (price - l.price)⟩ ::
              (spec_fifo_consume base price date q (r - min l.amount r)).1,
          (spec_fifo_consume base price date q (r - min l.amount r)).2)
      else
        ([⟨base, l.price, price, min l.amount r, l.date, date,
            min l.amount r * (price - l.price)⟩],
          ⟨l.price, l.amount - min l.amount r, l.date⟩ :: q)
    else ([], l :: q)

/-! ## Statistics over closed positions (app.py lines 146-218, 273-296) -/

namespace App

/-- Cost basis of a closed position:
`Open Price * Amount` (app.py line 163). -/
def costBasis (c : ClosedPos) : ℚ := c.openPrice * c.amount

/-- `cost_basis.replace(0, float('nan'))` (app.py line 164). -/
def replace0nan (q : ℚ) : Option ℚ := if q = 0 then none else some q

/-- The `Profit/Loss %` column value of one closed position (app.py
line 164): division against the NaN-masked cost basis, NaN (`none`)
exactly when the cost basis is zero. -/
def plPercent (c : ClosedPos) : Option ℚ :=
  (replace0nan (costBasis c)).map (fun cb => c.profitLossUsdt / cb * 100)

/-- pandas `Series.mean()` with the default `skipna=True`: mean of the
non-NaN entries, NaN (`none`) if none remain. -/
def meanOpt (xs : List (Option ℚ)) : Option ℚ :=
  if (xs.filterMap id) = [] then none
  else some ((xs.filterMap id).sum / ((xs.filterMap id).length : ℚ))

/-- The stats dict built by the non-empty branch of
`calculate_statistics` (app.py lines 156-182).  `opsPerMonth` keys
appear in first-occurrence order (pandas sorts group keys; no claim
depends on key order). -/
structure Stats where
  totalClosedTrades : ℕ
  totalPnl : ℚ
  winningTrades : ℕ
  losingTrades : ℕ
  winRate : ℚ
  avgPnl : ℚ
  avgPnlPct : Option ℚ
  opsPerMonth : List ((ℤ × ℤ) × ℕ)
deriving DecidableEq, Repr

/-- The stats dict of app.py lines 156-182 for a non-empty closed set. -/
def stats_full (closed : List ClosedPos) : Stats :=
  { totalClosedTrades := closed.length
    totalPnl := (closed.map ClosedPos.profitLossUsdt).sum
    winningTrades := (closed.filter (fun c => decide (0 < c.profitLossUsdt))).length
    losingTrades := (closed.filter (fun c => decide (c.profitLossUsdt < 0))).length
    winRate := if 0 < closed.length then
        ((closed.filter (fun c => decide (0 < c.profitLossUsdt))).length : ℚ) /
          (closed.length : ℚ) * 100
      else 0
    avgPnl := (closed.map ClosedPos.profitLossUsdt).sum / (closed.length : ℚ)
    avgPnlPct := meanOpt (closed.map plPercent)
    opsPerMonth := ((closed.map (fun c => month_of c.closeDate)).dedup).map
      (fun m => (m, (closed.filter
        (fun c => decide (month_of c.closeDate = m))).length)) }

/-- The value returned by `calculate_statistics`: the empty branch
(line 153) returns the bare - still empty - stats dict, the main
branch (line 184) returns a `(stats, dataframe)` pair, the dataframe
extended with its `Profit/Loss %` column. -/
inductive CalcResult where
  | emptyDict
  | full (s : Stats) (df : List (ClosedPos × Option ℚ))
deriving Repr

/-- `calculate_statistics` (app.py lines 146-184). -/
def calculate_statistics (closed : List ClosedPos) : CalcResult :=
  if closed.isEmpty then .emptyDict
  else .full (stats_full closed) (closed.map (fun c => (c, plPercent c)))

/-- The tuple unpacking `stats, closed_positions_df =
calculate_statistics(...)` at app.py line 296: unpacking the 0-key
dict returned by the empty branch raises `ValueError`. -/
def unpack2 (r : CalcResult) : Except String (Stats × List (ClosedPos × Option ℚ)) :=
  match r with
  | .emptyDict =>
      .error "ValueError: not enough values to unpack (expected 2, got 0)"
  | .full s df => .ok (s, df)

/-! ### Monthly weighted percentage (app.py lines 187-210) -/

/-- The rows of one month bucket (`groupby('Month')` membership). -/
def bucket (closed : List ClosedPos) (m : ℤ × ℤ) : List ClosedPos :=
  closed.filter (fun c => decide (month_of c.closeDate = m))

/-- The group keys of `groupby('Month')` (pandas sorts them ascending;
first-occurrence order is used here, and no claim depends on key
order). -/
def monthly_months (closed : List ClosedPos) : List (ℤ × ℤ) :=
  (closed.map (fun c => month_of c.closeDate)).dedup

/-- `monthly_grouped` (app.py lines 202-206): per month, the summed
`Profit/Loss USDT` and summed `Cost Basis` columns. -/
def monthly_grouped (closed : List ClosedPos) :
    List ((ℤ × ℤ) × ℚ × ℚ) :=
  (monthly_months closed).map (fun m =>
    (m, ((bucket closed m).map ClosedPos.profitLossUsdt).sum,
      ((bucket closed m).map costBasis).sum))

/-- The `Monthly Profit %` column (app.py lines 207-210): weighted
ratio per bucket, 0 when the bucket's aggregate cost basis is zero. -/
def monthly_profit_pct (closed : List ClosedPos) :
    List ((ℤ × ℤ) × ℚ) :=
  (monthly_grouped closed).map (fun row =>
    (row.1, if row.2.2 ≠ 0 then row.2.1 / row.2.2 * 100 else 0))

/-! ### Orphan resolution and the main dataflow (app.py lines 223-296) -/

/-- The manual closed operation synthesized from an orphan SELL row and
the externally supplied missing BUY price and date (app.py lines
274-283). -/
def resolve_orphan (o : Trade) (missingBuyPrice : ℚ) (missingBuyDate : Date) :
    ClosedPos :=
  ⟨o.baseCurrency, missingBuyPrice, o.price, o.amount,
   missingBuyDate, o.date, o.amount * (o.price - missingBuyPrice)⟩

/-- What `main` derives from the processed orders: the closed-position
table, the manually added closed operations held in
`st.session_state.manual_missing_operations`, and the result of the
statistics call at line 296 (which consumes `closed_positions_df` as
returned by `process_orders` - the manual operations are never merged
into it). -/
structure MainView where
  closedShown : List ClosedPos
  manualShown : List ClosedPos
  statsResult : Except String (Stats × List (ClosedPos × Option ℚ))

/-- The dataflow of `main` (app.py lines 230-296) after the upload:
process the orders, resolve each orphan with the submitted
`(missing price, missing date)` pair, then call
`calculate_statistics` on the unmerged closed-position table and
tuple-unpack the result. -/
def main_view (rows : List Trade) (resolutions : List (ℚ × Date)) : MainView :=
  { closedShown := (process_orders rows).closed
    manualShown := ((process_orders rows).orphans.zip resolutions).map
      (fun p => resolve_orphan p.1 p.2.1 p.2.2)
    statsResult := unpack2 (calculate_statistics (process_orders rows).closed) }

end App

/-! ## Concrete example data used by witnesses and counterexamples -/

def exDate0 : Date := ⟨2024, 1, 1⟩
def exDate1 : Date := ⟨2024, 1, 2⟩
def exDate2 : Date := ⟨2024, 1, 3⟩

/-- A BUY of 2 ETH at 10. -/
def exBuyEth : Trade := ⟨"ETHEUR", "BUY", 10, 2, exDate0, "ETH"⟩

/-- A SELL of 2 ETH at 15, fully matched by `exBuyEth`. -/
def exSellEth : Trade := ⟨"ETHEUR", "SELL", 15, 2, exDate1, "ETH"⟩

/-- A SELL of 2 BTC with no prior BTC BUY - an orphan sell. -/
def exSellBtc : Trade := ⟨"BTCEUR", "SELL", 100, 2, exDate2, "BTC"⟩

/-- The closed position produced by `exBuyEth` then `exSellEth`. -/
def exEthClosed : ClosedPos := ⟨"ETH", 10, 15, 2, exDate0, exDate1, 10⟩

/-- The manual closed lot from resolving `exSellBtc` at BUY price 80. -/
def exBtcManual : ClosedPos := ⟨"BTC", 80, 100, 2, exDate0, exDate2, 40⟩

def exC5Rows : List Trade := [exBuyEth, exSellEth, exSellBtc]
def exC5Res : List (ℚ × Date) := [(80, exDate0)]

/-- A lone orphan SELL. -/
def exOrphanSell : Trade := ⟨"BTCEUR", "SELL", 5, 1, exDate0, "BTC"⟩

/-- A BUY at price 0 (zero cost basis). -/
def exZeroBuy : Trade := ⟨"XEUR", "BUY", 0, 1, exDate0, "X"⟩

/-- A SELL at price 5 closing the zero-cost lot. -/
def exZeroSell : Trade := ⟨"XEUR", "SELL", 5, 1, exDate1, "X"⟩

/-- A closed position with zero cost basis (open price 0). -/
def exZeroCostLot : ClosedPos := ⟨"X", 0, 5, 1, exDate0, exDate1, 5⟩

/-- A row whose Side is neither BUY nor SELL. -/
def exDeposit : Trade := ⟨"BTCEUR", "DEPOSIT", 1, 1, exDate0, "BTC"⟩

/-- A state holding one open BTC lot of amount 3 at price 10. -/
def exC1State : App.PState := ⟨[("BTC", [⟨10, 3, exDate0⟩])], [], []⟩

/-- A SELL of 1 BTC at 15 against `exC1State`. -/
def exC1Sell : Trade := ⟨"BTCEUR", "SELL", 15, 1, exDate1, "BTC"⟩

/-- The partial slice that SELL emits: amount 1 = min(3, 1),
profit 1 * (15 - 10) = 5. -/
def exSlice : ClosedPos := ⟨"BTC", 10, 15, 1, exDate0, exDate1, 5⟩

/-- The visualizer loop state at start of a run. -/
def exVizInit : Viz.VizState := ⟨[], [], 0, .val 0⟩

/-- Two same-month closed lots with equal absolute profit but very
different cost bases (the spec section 8 example). -/
def exMonthLotA : ClosedPos := ⟨"A", 10, 15, 1, exDate0, exDate1, 5⟩
def exMonthLotB : ClosedPos := ⟨"A", 10, 21 / 2, 10, exDate0, exDate1, 5⟩

/-- A raw row whose Executed field holds no numeric token. -/
def exBadRaw : RawRow := ⟨"BTCEUR", "SELL", 5, "abc", "abc", exDate0⟩


/-! ## Helper lemmas about the dictionaries and the FIFO loop -/

theorem dictGet_dictSet_self {α : Type} (d : List (String × α)) (k : String)
    (v : α) : dictGet (dictSet d k v) k = some v := by
  induction d with
  | nil => simp [dictSet, dictGet]
  | cons kv d ih =>
      by_cases h : kv.1 = k
      · simp [dictSet, h, dictGet]
      · simp [dictSet, h, dictGet, ih]

theorem dictGet_dictSet_ne {α : Type} (d : List (String × α)) (k X : String)
    (v : α) (h : X ≠ k) : dictGet (dictSet d k v) X = dictGet d X := by
  have h1 : ¬(k = X) := fun hh => h hh.symm
  induction d with
  | nil => simp [dictSet, dictGet, h1]
  | cons kv d ih =>
      by_cases hk : kv.1 = k
      · have h2 : ¬(kv.1 = X) := by rw [hk]; exact h1
        simp [dictSet, hk, dictGet, h1, h2]
      · by_cases hx : kv.1 = X
        · simp [dictSet, hk, dictGet, hx, h, h1]
        · simp [dictSet, hk, dictGet, hx, ih]

namespace App

/-- Total open amount held in a lot queue. -/
def lotTotal (q : List Lot) : ℚ := (q.map Lot.amount).sum

/-- Total open amount for one base asset in the open-position book. -/
def openTotalFor (op : List (String × List Lot)) (X : String) : ℚ :=
  lotTotal (dictGetD op X [])

/-- Summed closed amount attributed to one base asset. -/
def closedAmountFor (cs : List ClosedPos) (X : String) : ℚ :=
  (cs.map (fun c => if c.baseCurrency = X then c.amount else 0)).sum

/-- Summed BUY `Executed` amount for one base asset. -/
def buyTotalFor (rows : List Trade) (X : String) : ℚ :=
  (rows.map (fun r =>
    if r.side = "BUY" ∧ r.baseCurrency = X then r.amount else 0)).sum

theorem closedAmountFor_append (cs ds : List ClosedPos) (X : String) :
    closedAmountFor (cs ++ ds) X = closedAmountFor cs X + closedAmountFor ds X := by
  simp [closedAmountFor]

/-- The inner sell loop conserves amounts: what leaves the queue is
exactly what appears in the emitted slices, whether or not the sell is
fully matched. -/
theorem sellFifo_conserve (base : String) (price : ℚ) (date : Date) :
    ∀ (q : List Lot) (r : ℚ),
      (((sellFifo base price date q r).1).map ClosedPos.amount).sum
        + lotTotal (sellFifo base price date q r).2 = lotTotal q := by
  intro q
  induction q with
  | nil => intro r; simp [sellFifo, lotTotal]
  | cons l q ih =>
      intro r
      by_cases h1 : 0 < r
      · by_cases h2 : l.amount ≤ r
        · have := ih (r - l.amount)
          simp only [sellFifo, if_pos h1, if_pos h2, List.map_cons,
            List.sum_cons, lotTotal] at this ⊢
          linarith
        · simp only [sellFifo, if_pos h1, if_neg h2, List.map_cons,
            List.sum_cons, List.map_nil, List.sum_nil, lotTotal]
          ring
      · simp [sellFifo, if_neg h1, lotTotal]

/-- Every slice emitted by the sell loop carries the sell's base
currency and close price, and its profit is computed from its own open
price. -/
theorem sellFifo_slices (base : String) (price : ℚ) (date : Date) :
    ∀ (q : List Lot) (r : ℚ) (c : ClosedPos),
      c ∈ (sellFifo base price date q r).1 →
        c.baseCurrency = base ∧ c.closePrice = price ∧
          c.profitLossUsdt = c.amount * (c.closePrice - c.openPrice) := by
  intro q
  induction q with
  | nil => intro r c hc; simp [sellFifo] at hc
  | cons l q ih =>
      intro r c hc
      by_cases h1 : 0 < r
      · by_cases h2 : l.amount ≤ r
        · simp only [sellFifo, if_pos h1, if_pos h2, List.mem_cons] at hc
          rcases hc with hc | hc
          · subst hc; exact ⟨rfl, rfl, rfl⟩
          · exact ih _ _ hc
        · simp only [sellFifo, if_pos h1, if_neg h2,
            List.mem_singleton] at hc
          subst hc; exact ⟨rfl, rfl, rfl⟩
      · simp [sellFifo, if_neg h1] at hc

theorem closedAmountFor_of_base (cs : List ClosedPos) (b X : String)
    (h : ∀ c ∈ cs, c.baseCurrency = b) :
    closedAmountFor cs X
      = if b = X then (cs.map ClosedPos.amount).sum else 0 := by
  induction cs with
  | nil => simp [closedAmountFor]
  | cons c cs ih =>
      have hc : c.baseCurrency = b := h c (List.mem_cons_self c cs)
      have hrest := ih (fun x hx => h x (List.mem_cons_of_mem c hx))
      simp only [closedAmountFor, List.map_cons, List.sum_cons] at hrest ⊢
      rw [hrest]
      by_cases hbX : b = X
      · have hcX : c.baseCurrency = X := by rw [hc, hbX]
        rw [if_pos hcX, if_pos hbX, if_pos hbX]
      · have hcX : ¬(c.baseCurrency = X) := by rw [hc]; exact hbX
        rw [if_neg hcX, if_neg hbX, if_neg hbX]
        simp

end App

namespace App

/-- Effect of one row on the per-asset measure
`open amount + closed amount`: only a BUY of that asset changes it. -/
theorem process_row_measure (st : PState) (row : Trade) (X : String) :
    openTotalFor (process_row st row).openPos X
      + closedAmountFor (process_row st row).closed X
      = openTotalFor st.openPos X + closedAmountFor st.closed X
        + (if row.side = "BUY" ∧ row.baseCurrency = X then row.amount else 0) := by
  by_cases hb : row.side = "BUY"
  · simp only [process_row, if_pos hb]
    by_cases hX : row.baseCurrency = X
    · have hkey : X = row.baseCurrency := hX.symm
      subst hkey
      simp only [openTotalFor, dictGetD, dictGet_dictSet_self, Option.getD_some]
      simp [lotTotal, hb, closedAmountFor]
      ring
    · have hne : X ≠ row.baseCurrency := fun hh => hX hh.symm
      simp only [openTotalFor, dictGetD, dictGet_dictSet_ne _ _ _ _ hne]
      have : ¬(row.side = "BUY" ∧ row.baseCurrency = X) := fun hh => hX hh.2
      simp [this]
  · by_cases hs : row.side = "SELL"
    · simp only [process_row, if_neg hb, if_pos hs]
      have hcond : ¬(row.side = "BUY" ∧ row.baseCurrency = X) := fun hh => hb hh.1
      by_cases hq : dictGetD st.openPos row.baseCurrency [] = []
      · simp [hq, hcond]
      · simp only [if_neg hq]
        by_cases hX : row.baseCurrency = X
        · have hkey : X = row.baseCurrency := hX.symm
          subst hkey
          simp only [openTotalFor, dictGetD, dictGet_dictSet_self,
            Option.getD_some, closedAmountFor_append]
          rw [closedAmountFor_of_base _ row.baseCurrency row.baseCurrency
            (fun c hc =>
              (sellFifo_slices row.baseCurrency row.price row.date _ _ c hc).1)]
          rw [if_pos rfl]
          have hcons := sellFifo_conserve row.baseCurrency row.price row.date
            (dictGetD st.openPos row.baseCurrency []) row.amount
          simp [hcond, hb]
          simp only [dictGetD] at hcons
          linarith
        · have hne : X ≠ row.baseCurrency := fun hh => hX hh.symm
          simp only [openTotalFor, dictGetD,
            dictGet_dictSet_ne _ _ _ _ hne, closedAmountFor_append]
          rw [closedAmountFor_of_base _ row.baseCurrency X
            (fun c hc =>
              (sellFifo_slices row.baseCurrency row.price row.date _ _ c hc).1)]
          rw [if_neg hX]
          simp [hcond]
    · simp [process_row, if_neg hb, if_neg hs, hb]

/-- The matching loop accumulates exactly the BUY totals into
`open + closed`, from any starting state. -/
theorem process_fold_measure :
    ∀ (rows : List Trade) (st : PState) (X : String),
      openTotalFor (rows.foldl process_row st).openPos X
        + closedAmountFor (rows.foldl process_row st).closed X
        = openTotalFor st.openPos X + closedAmountFor st.closed X
          + buyTotalFor rows X := by
  intro rows
  induction rows with
  | nil => intro st X; simp [buyTotalFor]
  | cons r rows ih =>
      intro st X
      simp only [List.foldl_cons]
      rw [ih]
      rw [process_row_measure]
      simp only [buyTotalFor, List.map_cons, List.sum_cons]
      ring

end App

/-- The app.py sell loop and the spec's min-based consumption function
are the same function. -/
theorem sellFifo_eq_spec_consume (base : String) (price : ℚ) (date : Date) :
    ∀ (q : List Lot) (r : ℚ),
      App.sellFifo base price date q r = spec_fifo_consume base price date q r := by
  intro q
  induction q with
  | nil => intro r; rfl
  | cons l q ih =>
      intro r
      simp only [App.sellFifo, spec_fifo_consume]
      by_cases h1 : 0 < r
      · rw [if_pos h1, if_pos h1]
        by_cases h2 : l.amount ≤ r
        · have hmin : min l.amount r = l.amount := min_eq_left h2
          have hz : l.amount - min l.amount r = 0 := by rw [hmin]; ring
          rw [if_pos h2, if_pos hz, hmin, ih]
        · have hlt : r < l.amount := lt_of_not_le h2
          have hmin : min l.amount r = r := min_eq_right (le_of_lt hlt)
          have hz : ¬(l.amount - min l.amount r = 0) := by
            rw [hmin]
            intro hh
            exact absurd (sub_eq_zero.mp hh) (ne_of_gt hlt)
          rw [if_neg h2, if_neg hz, hmin]
      · rw [if_neg h1, if_neg h1]

/-- Forget the quote-currency field of a visualizer lot. -/
def vizToLot (l : Viz.VizLot) : Lot := ⟨l.price, l.amount, l.date⟩

/-- The (open price, close price, amount, absolute profit) content of an
app.py closed position. -/
def appSliceProj (c : ClosedPos) : ℚ × ℚ × ℚ × ℚ :=
  (c.openPrice, c.closePrice, c.amount, c.profitLossUsdt)

/-- The (open price, close price, amount, absolute profit) content of a
visualizer.py closed position. -/
def vizSliceProj (c : Viz.VizClosed) : ℚ × ℚ × ℚ × ℚ :=
  (c.openPrice, c.closePrice, c.amount, c.plUsdt)

/-- The two files' sell loops emit the same slices (same open price,
close price, amount and absolute profit, in the same order). -/
theorem viz_sell_fifo_agrees (pair base : String) (price : ℚ) (date : Date) :
    ∀ (vq : List Viz.VizLot) (r : ℚ),
      ((Viz.viz_sell_fifo pair base price date vq r).1).map vizSliceProj
        = ((App.sellFifo base price date (vq.map vizToLot) r).1).map appSliceProj := by
  intro vq
  induction vq with
  | nil => intro r; rfl
  | cons l q ih =>
      intro r
      simp only [List.map_cons, Viz.viz_sell_fifo, App.sellFifo, vizToLot]
      by_cases h1 : 0 < r
      · rw [if_pos h1, if_pos h1]
        by_cases h2 : l.amount ≤ r
        · rw [if_pos h2, if_pos h2]
          simp [vizSliceProj, appSliceProj, ih]
        · rw [if_neg h2, if_neg h2]
          simp [vizSliceProj, appSliceProj]
      · rw [if_neg h1, if_neg h1]
        simp

/-- The regex extraction fails exactly on digit-free strings. -/
theorem extract_token_eq_none (l : List Char) :
    extract_token l = none ↔ ∀ c ∈ l, ¬(c.isDigit = true) := by
  induction l with
  | nil => simp [extract_token]
  | cons c cs ih =>
      by_cases hc : c.isDigit
      · simp [extract_token, hc]
      · simp [extract_token, hc, ih]

/-- `Executed` extraction yields NaN exactly on digit-free strings. -/
theorem extract_executed_eq_none (s : String) :
    extract_executed s = none ↔ ∀ c ∈ s.toList, ¬(c.isDigit = true) := by
  rw [extract_executed, Option.map_eq_none', extract_token_eq_none]

/-- pandas' NaN-skipping mean ignores NaN entries. -/
theorem meanOpt_cons_none (xs : List (Option ℚ)) :
    App.meanOpt (none :: xs) = App.meanOpt xs := by
  simp [App.meanOpt, List.filterMap_cons]

/-! ## Claim theorems -/

/-- Claim C1: for every normalized trade sequence processed in order,
each SELL consumes lots strictly from the head of its base asset's
queue with `take = min(head.amount, remaining)` per slice, and each
emitted slice's `profitLossAbsolute` equals
`take * (closePrice - that slice's own open price)` - never a blended
cost basis.  Stated as: (1) the app.py sell loop equals the spec's
min-based head consumption; (2) every emitted slice prices its profit
against its own open price and the sell's close price; (3) a SELL row
with a non-empty queue rewrites the state by exactly that head
consumption; (4) the visualizer.py sell loop emits the same slices. -/
theorem claim_c1_fifo_slices :
    (∀ (base : String) (price : ℚ) (date : Date) (q : List Lot) (r : ℚ),
      App.sellFifo base price date q r = spec_fifo_consume base price date q r)
    ∧ (∀ (base : String) (price : ℚ) (date : Date) (q : List Lot) (r : ℚ)
        (c : ClosedPos), c ∈ (App.sellFifo base price date q r).1 →
          c.closePrice = price ∧
            c.profitLossUsdt = c.amount * (c.closePrice - c.openPrice))
    ∧ (∀ (st : App.PState) (row : Trade), row.side = "SELL" →
        dictGetD st.openPos row.baseCurrency [] ≠ [] →
          App.process_row st row = { st with
            openPos := dictSet st.openPos row.baseCurrency
              (spec_fifo_consume row.baseCurrency row.price row.date
                (dictGetD st.openPos row.baseCurrency []) row.amount).2,
            closed := st.closed ++
              (spec_fifo_consume row.baseCurrency row.price row.date
                (dictGetD st.openPos row.baseCurrency []) row.amount).1 })
    ∧ (∀ (pair base : String) (price : ℚ) (date : Date)
        (vq : List Viz.VizLot) (r : ℚ),
          ((Viz.viz_sell_fifo pair base price date vq r).1).map vizSliceProj
            = ((App.sellFifo base price date (vq.map vizToLot) r).1).map
                appSliceProj) := by
  refine ⟨sellFifo_eq_spec_consume, ?_, ?_, viz_sell_fifo_agrees⟩
  · intro base price date q r c hc
    exact ⟨(App.sellFifo_slices base price date q r c hc).2.1,
      (App.sellFifo_slices base price date q r c hc).2.2⟩
  · intro st row hs hq
    have hb : ¬(row.side = "BUY") := by rw [hs]; decide
    simp only [App.process_row, if_neg hb, if_pos hs, if_neg hq,
      sellFifo_eq_spec_consume]

/-- Witness for C1: a SELL of 1 against an open lot of 3 at 10 emits
the partial slice `exSlice` with profit 1 * (15 - 10), and the step on
`exC1State` is exactly the spec consumption. -/
theorem claim_c1_witness :
    (exSlice.closePrice = 15 ∧
      exSlice.profitLossUsdt = exSlice.amount * (exSlice.closePrice - exSlice.openPrice))
    ∧ App.process_row exC1State exC1Sell = { exC1State with
        openPos := dictSet exC1State.openPos "BTC"
          (spec_fifo_consume "BTC" 15 exDate1
            (dictGetD exC1State.openPos "BTC" []) 1).2,
        closed := exC1State.closed ++
          (spec_fifo_consume "BTC" 15 exDate1
            (dictGetD exC1State.openPos "BTC" []) 1).1 } :=
  ⟨claim_c1_fifo_slices.2.1 "BTC" 15 exDate1 [⟨10, 3, exDate0⟩] 1 exSlice
      (by norm_num +decide [App.sellFifo, exSlice, exDate0, exDate1]),
    claim_c1_fifo_slices.2.2.1 exC1State exC1Sell rfl
      (by norm_num +decide [dictGetD, dictGet, exC1State])⟩

/-- Claim C2: for every input (in particular those with no orphan
sells and no over-selling, as the claim restricts to), and for every
base asset, the summed closed amounts plus the remaining open amounts
equal the summed BUY executed amounts.  The identity needs no
precondition: an orphan SELL moves no amounts, and a partially matched
SELL closes exactly what it removes from the queue. -/
theorem claim_c2_conservation (rows : List Trade) (X : String) :
    App.closedAmountFor (App.process_orders rows).closed X
      + App.openTotalFor (App.process_orders rows).openPos X
      = App.buyTotalFor rows X := by
  have h := App.process_fold_measure rows App.initState X
  have h0 : App.openTotalFor App.initState.openPos X = 0 := by
    simp [App.initState, App.openTotalFor, App.lotTotal, dictGetD, dictGet]
  have h1 : App.closedAmountFor App.initState.closed X = 0 := by
    simp [App.initState, App.closedAmountFor]
  rw [h0, h1] at h
  simp only [App.process_orders]
  linarith

/-- Claim C3 (amended): in app.py, a SELL whose base asset has an empty
or absent queue appends exactly one orphan record, changes neither the
open book nor the closed list, and raises nothing; in visualizer.py the
same SELL is skipped with no record of any kind (there is no orphan
collection there). -/
theorem claim_c3_orphan_handling :
    (∀ (st : App.PState) (row : Trade), row.side = "SELL" →
        dictGetD st.openPos row.baseCurrency [] = [] →
          App.process_row st row = { st with orphans := st.orphans ++ [row] })
    ∧ (∀ (st : Viz.VizState) (row : Trade), row.side = "SELL" →
        dictGetD st.openPos row.baseCurrency [] = [] →
          Viz.viz_process_row st row = st) := by
  constructor
  · intro st row hs hq
    have hb : ¬(row.side = "BUY") := by rw [hs]; decide
    simp only [App.process_row, if_neg hb, if_pos hs, if_pos hq]
  · intro st row hs hq
    have hb : ¬(row.side = "BUY") := by rw [hs]; decide
    simp only [Viz.viz_process_row, if_neg hb, if_pos hs, if_pos hq]

/-- Witness for C3: the lone orphan SELL is recorded once by app.py's
loop and leaves the visualizer.py state untouched. -/
theorem claim_c3_witness :
    App.process_row App.initState exOrphanSell
        = { App.initState with orphans := App.initState.orphans ++ [exOrphanSell] }
    ∧ Viz.viz_process_row exVizInit exOrphanSell = exVizInit :=
  ⟨claim_c3_orphan_handling.1 App.initState exOrphanSell rfl rfl,
   claim_c3_orphan_handling.2 exVizInit exOrphanSell rfl rfl⟩

/-- Counterexample for C3 as stated: visualizer.py's `process_orders`
leaves no record whatsoever of an unmatched SELL - its output on the
lone orphan SELL equals its output on the empty input, so it does not
emit "exactly one OrphanSell record for that trade". -/
theorem claim_c3_counterexample :
    Viz.viz_process_orders [exOrphanSell] = Viz.viz_process_orders [] := by
  rfl

/-- Claim C4 (code bug): the empty trade set does produce empty closed,
open and orphan collections, but the statistics stage then fails
instead of reporting "no statistics available": `calculate_statistics`
returns the bare empty dict on the empty branch while its caller
tuple-unpacks two values (app.py line 296), a `ValueError`. -/
theorem claim_c4_empty_input :
    App.process_orders [] = App.initState
    ∧ App.main_view [] [] = ⟨[], [],
        Except.error "ValueError: not enough values to unpack (expected 2, got 0)"⟩ :=
  ⟨rfl, rfl⟩

/-- Claim C5 (amended): the synthesized manual closed lot has the
claimed fields (amount = the orphan's executed amount, open price = the
supplied missing BUY price, profit = amount * (closePrice -
openPrice)) and is appended to the separate manual-operations
collection; the statistics stage, however, consumes the unmerged
`process_orders` closed table: whenever the statistics call succeeds,
its stats and dataframe are computed from that table alone. -/
theorem claim_c5_manual_lot_dataflow :
    (∀ (o : Trade) (p : ℚ) (d : Date),
      (App.resolve_orphan o p d).amount = o.amount ∧
        (App.resolve_orphan o p d).openPrice = p ∧
        (App.resolve_orphan o p d).closePrice = o.price ∧
        (App.resolve_orphan o p d).profitLossUsdt = o.amount * (o.price - p))
    ∧ (∀ (rows : List Trade) (res : List (ℚ × Date)),
        (App.main_view rows res).manualShown
          = ((App.process_orders rows).orphans.zip res).map
              (fun pr => App.resolve_orphan pr.1 pr.2.1 pr.2.2))
    ∧ (∀ (rows : List Trade) (res : List (ℚ × Date)) (s : App.Stats)
        (df : List (ClosedPos × Option ℚ)),
          (App.main_view rows res).statsResult = Except.ok (s, df) →
            df = (App.process_orders rows).closed.map
                   (fun c => (c, App.plPercent c))
              ∧ s = App.stats_full (App.process_orders rows).closed) := by
  refine ⟨fun o p d => ⟨rfl, rfl, rfl, rfl⟩, fun rows res => rfl, ?_⟩
  intro rows res s df h
  simp only [App.main_view] at h
  by_cases he : (App.process_orders rows).closed.isEmpty
  · simp [App.calculate_statistics, he, App.unpack2] at h
  · simp [App.calculate_statistics, he, App.unpack2] at h
    exact ⟨h.2.symm, h.1.symm⟩

/-- Evaluation: the concrete C5 run closes exactly the ETH lot. -/
theorem exC5_closed_eval : (App.process_orders exC5Rows).closed = [exEthClosed] := by
  norm_num +decide [App.process_orders, exC5Rows, App.process_row, App.initState,
    exBuyEth, exSellEth, exSellBtc, dictGetD, dictGet, dictSet, App.sellFifo,
    exEthClosed, exDate0, exDate1, exDate2]

/-- Evaluation: the concrete C5 run orphans exactly the BTC sell. -/
theorem exC5_orphans_eval :
    (App.process_orders exC5Rows).orphans = [exSellBtc] := by
  norm_num +decide [App.process_orders, exC5Rows, App.process_row, App.initState,
    exBuyEth, exSellEth, exSellBtc, dictGetD, dictGet, dictSet, App.sellFifo,
    exDate0, exDate1, exDate2]

/-- Evaluation: the ETH lot's percentage return is 50. -/
theorem exEthClosed_plPercent : App.plPercent exEthClosed = some 50 := by
  norm_num [App.plPercent, App.replace0nan, App.costBasis, exEthClosed]

/-- Witness for C5: on the concrete run with one matched ETH trade and
one resolved BTC orphan, the statistics input is the one-element ETH
table. -/
theorem claim_c5_witness :
    [(exEthClosed, (some 50 : Option ℚ))]
        = (App.process_orders exC5Rows).closed.map
            (fun c => (c, App.plPercent c))
      ∧ App.stats_full [exEthClosed]
        = App.stats_full (App.process_orders exC5Rows).closed := by
  have h := claim_c5_manual_lot_dataflow.2.2 exC5Rows exC5Res
    (App.stats_full [exEthClosed]) [(exEthClosed, some 50)]
    (by
      simp only [App.main_view]
      rw [exC5_closed_eval]
      simp [App.calculate_statistics, App.unpack2, exEthClosed_plPercent])
  exact h

/-- Counterexample for C5 as stated: the resolved BTC manual lot lands
only in the manual collection; the statistics call receives a table
that does not contain it, so the manual lot is not "appended to the
closed-lot collection that all downstream statistics are computed
over". -/
theorem claim_c5_counterexample :
    (App.main_view exC5Rows exC5Res).manualShown = [exBtcManual]
    ∧ (App.main_view exC5Rows exC5Res).statsResult
        = Except.ok (App.stats_full [exEthClosed], [(exEthClosed, some 50)])
    ∧ exBtcManual ∉ [exEthClosed] := by
  refine ⟨?_, ?_, ?_⟩
  · simp only [App.main_view]
    rw [exC5_orphans_eval]
    norm_num +decide [exC5Res, App.resolve_orphan, exSellBtc, exBtcManual,
      exDate0, exDate2]
  · simp only [App.main_view]
    rw [exC5_closed_eval]
    simp [App.calculate_statistics, App.unpack2, exEthClosed_plPercent]
  · norm_num +decide [exBtcManual, exEthClosed, exDate0, exDate1, exDate2]

/-- Claim C6 (amended): a row whose Executed field holds no numeric
token does not make normalization fail - no MalformedFieldError exists
in the code.  The extraction yields NaN exactly on digit-free strings
and the normalization stage always succeeds, so the row continues into
matching carrying a NaN amount. -/
theorem claim_c6_malformed_executed :
    (∀ s : String,
      extract_executed s = none ↔ ∀ c ∈ s.toList, ¬(c.isDigit = true))
    ∧ (∀ rs : List RawRow, normalize_rows rs = Except.ok (rs.map normalize_row)) :=
  ⟨extract_executed_eq_none, fun _ => rfl⟩

/-- Witness for C6: the digit-free field "abc" extracts to NaN. -/
theorem claim_c6_witness : extract_executed "abc" = none :=
  (claim_c6_malformed_executed.1 "abc").mpr (by decide)

/-- Counterexample for C6 as stated: normalization of a row with a
token-free Executed field succeeds (returns `.ok`, raising nothing)
with the field set to NaN, where the claim requires a
MalformedFieldError failure. -/
theorem claim_c6_counterexample :
    normalize_rows [exBadRaw]
      = Except.ok [⟨"BTCEUR", "SELL", 5, none, none, exDate0, "EUR", "BTC"⟩] := by
  rfl

/-- Claim C8 (amended): in app.py's `calculate_statistics` the per-lot
percentage is `pnl / (openPrice * amount) * 100`, NaN exactly when the
cost basis is zero (never an infinity), and NaN entries are skipped by
the percentage mean; in visualizer.py the percentage is
`(close - open) / open * 100` with no guard, so open price 0 with a
positive close price yields +infinity. -/
theorem claim_c8_percentage_guard :
    (∀ c : ClosedPos,
      (App.costBasis c = 0 → App.plPercent c = none)
      ∧ (App.costBasis c ≠ 0 →
          App.plPercent c
            = some (c.profitLossUsdt / (c.openPrice * c.amount) * 100)))
    ∧ (∀ xs : List (Option ℚ), App.meanOpt (none :: xs) = App.meanOpt xs)
    ∧ (∀ closed : List ClosedPos, closed ≠ [] →
        App.calculate_statistics closed
          = App.CalcResult.full (App.stats_full closed)
              (closed.map (fun c => (c, App.plPercent c)))
          ∧ (App.stats_full closed).avgPnlPct
            = App.meanOpt (closed.map App.plPercent))
    ∧ (∀ P : ℚ, 0 < P → Viz.viz_pl_pct 0 P = FloatVal.inf) := by
  refine ⟨?_, meanOpt_cons_none, ?_, ?_⟩
  · intro c
    constructor
    · intro h
      simp [App.plPercent, App.replace0nan, h]
    · intro h
      have h' : ¬(c.openPrice * c.amount = 0) := by
        simpa [App.costBasis] using h
      simp [App.plPercent, App.replace0nan, App.costBasis, h']
  · intro closed hne
    have he : ¬closed.isEmpty := by simpa [List.isEmpty_iff] using hne
    exact ⟨by simp [App.calculate_statistics, he], rfl⟩
  · intro P hP
    simp [Viz.viz_pl_pct, fdiv, fmul100, sub_zero, hP]

/-- Witness for C8: the zero-cost lot's percentage is NaN, the
statistics of the one-lot table use the NaN-skipping mean, and the
visualizer formula at open price 0 and close price 5 gives +infinity. -/
theorem claim_c8_witness :
    App.plPercent exZeroCostLot = none
    ∧ (App.stats_full [exZeroCostLot]).avgPnlPct
        = App.meanOpt ([exZeroCostLot].map App.plPercent)
    ∧ Viz.viz_pl_pct 0 5 = FloatVal.inf :=
  ⟨(claim_c8_percentage_guard.1 exZeroCostLot).1
      (by norm_num [App.costBasis, exZeroCostLot]),
   (claim_c8_percentage_guard.2.2.1 [exZeroCostLot] (by simp)).2,
   claim_c8_percentage_guard.2.2.2 5 (by decide)⟩

/-- Counterexample for C8 as stated: a visualizer.py run in which a
closed lot's percentage return is +infinity (open price 0), where the
claim requires NaN and "never an infinity". -/
theorem claim_c8_counterexample :
    (Viz.viz_process_orders [exZeroBuy, exZeroSell]).map
        (fun res => res.closed.map Viz.VizClosed.plPct)
      = Except.ok [FloatVal.inf] := by
  norm_num +decide [Viz.viz_process_orders, Viz.viz_process_row, Viz.viz_sell_fifo,
    Viz.viz_summarize, Viz.viz_pl_pct, fdiv, fmul100, FloatVal.add, dictGetD,
    dictGet, dictSet, quote_currencies, pyEndsWith, viz_base_of, pyReplaceEmpty,
    removeAllFuel, stripPre, pyLast4, exZeroBuy, exZeroSell, exDate0, exDate1,
    Except.map]

/-- Claim C9: every reported monthly percentage is the cost-basis
weighted ratio `sum(pnl) / sum(openPrice * amount) * 100` of its
bucket, 0 when the bucket's aggregate cost basis is 0; and on the
two-lot example it differs from the plain average of per-lot
percentages (100/11 percent weighted against 55/2 percent naive). -/
theorem claim_c9_weighted_monthly :
    (∀ (closed : List ClosedPos) (m : ℤ × ℤ) (p : ℚ),
      (m, p) ∈ App.monthly_profit_pct closed →
        p = (if ((App.bucket closed m).map App.costBasis).sum ≠ 0 then
              ((App.bucket closed m).map ClosedPos.profitLossUsdt).sum
                / ((App.bucket closed m).map App.costBasis).sum * 100
            else 0))
    ∧ App.monthly_profit_pct [exMonthLotA, exMonthLotB]
        = [((2024, 1), 100 / 11)]
    ∧ App.meanOpt ([exMonthLotA, exMonthLotB].map App.plPercent)
        = some (55 / 2)
    ∧ (100 / 11 : ℚ) ≠ 55 / 2 := by
  refine ⟨?_,
    by
      norm_num +decide [App.monthly_profit_pct, App.monthly_grouped,
        App.monthly_months, App.bucket, App.costBasis, month_of, exMonthLotA,
        exMonthLotB, exDate0, exDate1, List.dedup_cons_of_mem,
        List.dedup_cons_of_not_mem],
    by
      norm_num [App.meanOpt, App.plPercent, App.replace0nan, App.costBasis,
        exMonthLotA, exMonthLotB, List.filterMap_cons, List.filterMap_nil, id_eq]
      intro h
      exact absurd h (List.cons_ne_nil 50 [5]),
    by norm_num⟩
  intro closed m p hm
  simp only [App.monthly_profit_pct, App.monthly_grouped, List.map_map,
    List.mem_map] at hm
  obtain ⟨m', hm', heq⟩ := hm
  have h1 : m' = m := congrArg Prod.fst heq
  have h2 := (congrArg Prod.snd heq).symm
  subst h1
  exact h2

/-- Witness for C9: the weighted formula instantiated on the concrete
two-lot bucket. -/
theorem claim_c9_witness :
    (100 / 11 : ℚ)
      = (if ((App.bucket [exMonthLotA, exMonthLotB] (2024, 1)).map
              App.costBasis).sum ≠ 0 then
          ((App.bucket [exMonthLotA, exMonthLotB] (2024, 1)).map
              ClosedPos.profitLossUsdt).sum
            / ((App.bucket [exMonthLotA, exMonthLotB] (2024, 1)).map
                App.costBasis).sum * 100
        else 0) :=
  claim_c9_weighted_monthly.1 [exMonthLotA, exMonthLotB] (2024, 1) (100 / 11)
    (by rw [claim_c9_weighted_monthly.2.1]; simp)

/-- Claim C10: a row whose Side is neither BUY nor SELL is silently
skipped by both matching loops - no lot, closed record or orphan is
created, no state changes, nothing raises. -/
theorem claim_c10_unknown_side (st : App.PState) (vst : Viz.VizState)
    (row : Trade) (hb : row.side ≠ "BUY") (hs : row.side ≠ "SELL") :
    App.process_row st row = st ∧ Viz.viz_process_row vst row = vst := by
  constructor
  · simp only [App.process_row, if_neg hb, if_neg hs]
  · simp only [Viz.viz_process_row, if_neg hb, if_neg hs]

/-- Witness for C10: a DEPOSIT row leaves both initial states
unchanged. -/
theorem claim_c10_witness :
    App.process_row App.initState exDeposit = App.initState
    ∧ Viz.viz_process_row exVizInit exDeposit = exVizInit :=
  claim_c10_unknown_side App.initState exVizInit exDeposit
    (by decide) (by decide)
